import Mathlib

/-!
Verification development for the ADB_File_Sync repository
(`android/adb.py`, `android/rsync.py`).

The Python source is shallowly embedded: pure computations become Lean
functions, the effectful parts (socket traffic, shell commands, sidecar-DB
pushes) become explicit traces of events, and Python exceptions become an
`Except` error type.  Bytes are modelled as `Nat`, byte strings as
`List Nat`, Python `str` as Lean `String`, and POSIX mtimes as `Int`
(so that differences can be negative, as in Python's `l.mtime - r_mtime`).

Python `dict`s are modelled as association lists whose insert operation
removes any previous binding of the key, so `List.lookup` agrees with
Python dictionary lookup.

Set iteration order in the planning loops of `rsync.py` is unspecified in
Python 2; the embedding iterates in the (deduplicated) order of the
underlying dirent lists.  All claims proved below are order-insensitive
(membership / per-element properties), so this determinization is harmless.
-/

namespace AdbSync

/-- `adb.dirent` (adb.py line 430): `namedtuple('dirent', 'mode size mtime name')`. -/
structure Dirent where
  mode : Nat
  size : Nat
  mtime : Int
  name : String
deriving Repr, DecidableEq

/-- Sidecar DB contents (rsync.py: "db is dict mapping canonical relative
pathname -> (mtime, size) tuples"). -/
abbrev DB := List (String × Int × Nat)

/-- Python exception values that the embedded code can raise.  `adbError`
is `android.utils.AdbError`; `protocolError` is `android.utils.ProtocolError`;
`unpicklingError` models `pickle.UnpicklingError`; `attributeError` models
Python's built-in `AttributeError`.  The constructors are distinct: none of
the non-`adbError` exceptions is a subclass of `AdbError`, so an
`except adb.AdbError` clause does not catch them. -/
inductive PyErr
  | adbError (msg : String)
  | protocolError (msg : String)
  | unpicklingError (msg : String)
  | attributeError (msg : String)
  | valueError (msg : String)
deriving Repr, DecidableEq

/-- `stat.S_IFMT` mask. -/
def S_IFMT : Nat := 0o170000

/-- `stat.S_ISDIR`. -/
def S_ISDIR (m : Nat) : Bool := m &&& S_IFMT == 0o040000

/-- `stat.S_ISREG`. -/
def S_ISREG (m : Nat) : Bool := m &&& S_IFMT == 0o100000

/-- Python dict lookup on the association-list model (the insert below keeps
keys unique, so the first binding is the binding). -/
def dctGet? {α : Type} (m : List (String × α)) (k : String) : Option α :=
  m.lookup k

/-- `m.get(k, d)` on the association-list model. -/
def dctGetD {α : Type} (m : List (String × α)) (k : String) (d : α) : α :=
  (dctGet? m k).getD d

/-- `m[k] = v` on the association-list model: drop any previous binding of
`k`, append the new one. -/
def dctInsert {α : Type} (m : List (String × α)) (k : String) (v : α) :
    List (String × α) :=
  (m.filter (fun p => p.1 ≠ k)) ++ [(k, v)]

/-- Python 2 `str.lower()` on byte strings: ASCII lowercasing,
character by character.  (Defined over the character list so that it
reduces in the kernel; `Char.toLower` lowercases exactly `A`-`Z`.) -/
def pyLower (s : String) : String :=
  String.mk (s.data.map Char.toLower)

/-- Python `str.startswith(pre)`: byte-wise prefix test.  (Defined over
the character lists so that it reduces in the kernel.) -/
def pyStartsWith (s pre : String) : Bool :=
  s.data.take pre.data.length == pre.data

theorem lookup_append_of_not_mem_keys {α : Type} (k : String) (v : α) :
    ∀ l : List (String × α), (∀ p ∈ l, p.1 ≠ k) →
      List.lookup k (l ++ [(k, v)]) = some v
  | [], _ => by simp [List.lookup]
  | p :: l, h => by
    obtain ⟨a, b⟩ := p
    have hk : (k == a) = false :=
      beq_eq_false_iff_ne.mpr (Ne.symm (h (a, b) (by simp)))
    simp only [List.cons_append, List.lookup, hk]
    exact lookup_append_of_not_mem_keys k v l (fun q hq => h q (by simp [hq]))

theorem dctGet_insert_self {α : Type} (m : List (String × α)) (k : String) (v : α) :
    dctGet? (dctInsert m k v) k = some v := by
  apply lookup_append_of_not_mem_keys
  intro p hp
  simpa using List.of_mem_filter hp

/-!  ### 4.A Framed I/O: `_recvall` (adb.py lines 50-56)

```python
def _recvall(sock, size):
    datas, remain = [], size
    while remain > 0:
        data = sock.recv(remain)
        remain -= len(data)
        datas.append(data)
    return ''.join(datas)
```

The socket is modelled as the list of byte strings that successive `recv`
calls return; once the list is exhausted the peer has closed the
connection, and every further `recv` returns the empty string (graceful
close in Python 2 socket semantics).  A `recv(remain)` never returns more
than `remain` bytes, which the model enforces with `List.take`.  The loop
is given explicit fuel; `none` means the loop has not finished within
`fuel` iterations. -/

/-- One `sock.recv(remain)` call: consume the next chunk (truncated to the
requested count, as the OS does); after close, return the empty string. -/
def recvStep (remain : Nat) : List (List Nat) → List (List Nat) × List Nat
  | [] => ([], [])
  | c :: cs => (cs, c.take remain)

/-- The `while remain > 0` loop of `_recvall`, with fuel.  Returns the
accumulated bytes (`''.join(datas)`) when the loop exits, `none` if it is
still running after `fuel` iterations. -/
def recvallGo (fuel : Nat) (sock : List (List Nat)) (remain : Nat)
    (acc : List Nat) : Option (List Nat) :=
  match fuel with
  | 0 => none
  | fuel + 1 =>
    if remain = 0 then some acc
    else
      let (sock', data) := recvStep remain sock
      recvallGo fuel sock' (remain - data.length) (acc ++ data)

/-- `_recvall(sock, size)`. -/
def _recvall (fuel : Nat) (sock : List (List Nat)) (size : Nat) :
    Option (List Nat) :=
  recvallGo fuel sock size []

/-- Once the peer has closed (`sock = []`) with `remain > 0` bytes still
outstanding, every iteration leaves the state unchanged: the loop never
terminates, for any amount of fuel. -/
theorem recvallGo_closed_ne (fuel : Nat) :
    ∀ remain acc, remain ≠ 0 → recvallGo fuel [] remain acc = none := by
  induction fuel with
  | zero => intro remain acc _; rfl
  | succ fuel ih =>
    intro remain acc h
    simp only [recvallGo, if_neg h, recvStep]
    simpa using ih remain acc h

/-- C4: the claim says an exact-length read of n bytes either returns
exactly n bytes or fails with a TransportError when the peer closes early,
and never fails to terminate.  Evaluating `_recvall` at the failing input
(a request for 2 bytes against a peer that sends one byte `97` and then
closes) shows the loop never exits, for any number of iterations: `recv`
keeps returning the empty string, `remain` stays at 1, and no error is
ever raised.  The code contradicts the claim (and the spec's §4.A). -/
theorem C4_recvall_spins_forever_on_early_close :
    ∀ fuel, _recvall fuel [[97]] 2 = none := by
  intro fuel
  cases fuel with
  | zero => rfl
  | succ fuel =>
    have h := recvallGo_closed_ne fuel 1 [97] (by decide)
    simpa [_recvall, recvallGo, recvStep] using h

/-!  ### 4.D Sync session: `sync_push` (adb.py lines 288-320) and
`sync_pull` (adb.py lines 322-366)

The wire traffic a push emits is modelled as a list of messages; the
server's reply to the initial STAT is a parameter (`statMode`, and for
pull also `statMtime`).  `SYNC_DATA_MAX` chunking follows
`inf.read(SYNC_DATA_MAX)`. -/

/-- `SYNC_DATA_MAX = (64*1024)` (adb.py line 38). -/
def SYNC_DATA_MAX : Nat := 64 * 1024

/-- Messages sent by the client during a push. -/
inductive WireMsg
  | statReq (path : String)       -- sync_send_req(sock, 'STAT', path)
  | sendReq (body : String)       -- sync_send_req(sock, 'SEND', body)
  | dataChunk (payload : List Nat)  -- sync_send_data_data
  | dataDone (mtime : Int)        -- sync_send_data_done
deriving Repr, DecidableEq

/-- Successive `read(SYNC_DATA_MAX)` results for a byte string: maximal
chunks of `SYNC_DATA_MAX` bytes, stopping at the empty read. -/
def chunkify (l : List Nat) : List (List Nat) :=
  if h : l = [] then []
  else
    have : (l.drop SYNC_DATA_MAX).length < l.length := by
      rw [List.length_drop]
      have hl : 0 < l.length := List.length_pos.mpr h
      have hS : 0 < SYNC_DATA_MAX := by decide
      omega
    l.take SYNC_DATA_MAX :: chunkify (l.drop SYNC_DATA_MAX)
termination_by l.length
decreasing_by exact this

/-- The source argument of `sync_push`: either a file-like object (its
readable content) or a local filename together with what `os.stat` reports
for it. -/
inductive PushSource
  | stream (content : List Nat)
  | localPath (st_mode : Nat) (st_mtime : Int) (content : List Nat)
deriving Repr, DecidableEq

/-- `AdbDevice.sync_push(sock, local_file, remote_file)` (adb.py lines
288-320).  `statMode` is the mode the server returns for the initial
`sync_stat(sock, remote_file)`; `status` is the outcome of the final
`sync_recv_status` (OKAY or a raised error).  Returns the messages sent
after the STAT request, paired with the call's outcome. -/
def sync_push (statMode : Nat) (src : PushSource) (remote_file : String)
    (status : Except PyErr Unit) : List WireMsg × Except PyErr Unit :=
  let pre : List WireMsg := [.statReq remote_file]
  if statMode ≠ 0 ∧ S_ISDIR statMode = true then
    (pre, .error (.adbError ("Cannot push onto " ++ remote_file ++ ": is S_ISDIR")))
  else
    match src with
    | .stream content =>
        -- mode, mtime = 0644, 0
        (pre ++ [.sendReq (remote_file ++ "," ++ toString (0o644 : Nat))]
             ++ (chunkify content).map .dataChunk ++ [.dataDone 0], status)
    | .localPath st_mode st_mtime content =>
        if ¬ S_ISREG st_mode = true then
          (pre, .error (.adbError ("Cannot push " ++ "local" ++ ": not S_ISREG")))
        else
          -- augmented_remote_file = "%s,%d" % (remote_file, mode)
          -- (`mode` here is the variable bound at line 292, i.e. the
          -- remote STAT's mode, exactly as the source has it)
          (pre ++ [.sendReq (remote_file ++ "," ++ toString statMode)]
               ++ (chunkify content).map .dataChunk ++ [.dataDone st_mtime], status)

/-- What `os.stat(local_file)` sees at the pull target. -/
inductive LocalNode
  | lfile (data : List Nat) (mtime : Int)
  | ldir
deriving Repr, DecidableEq

/-- The slice of the local filesystem `sync_pull` touches: the target path
and its `.part` sibling. -/
structure LocalFs where
  target : Option LocalNode
  part : Option (List Nat)
deriving Repr, DecidableEq

/-- `AdbDevice.sync_pull(sock, remote_file, local_file)` with a filename
target (adb.py lines 322-366; the file-like-object branch at lines 332-338
does not touch the filesystem and is not modelled here).  `statMode` and
`statMtime` come from the initial `sync_stat`; `frames` is the sequence of
DATA payloads read until DONE, or the error a failing read raises
mid-transfer.  Returns the call's outcome and the final filesystem state. -/
def sync_pull_to_path (statMode : Nat) (statMtime : Int)
    (remote_file : String) (fs0 : LocalFs)
    (frames : Except PyErr (List (List Nat))) : Except PyErr Unit × LocalFs :=
  if statMode = 0 then
    (.error (.adbError ("Cannot pull " ++ remote_file ++ ": file does not exist")), fs0)
  else if ¬ S_ISREG statMode = true then
    (.error (.adbError ("Cannot pull " ++ remote_file ++ ": not S_ISREG")), fs0)
  else
    match fs0.target with
    | some _ =>
        -- Line 346 evaluates `st.mode`.  A Python stat result exposes
        -- `st_mode`, not `mode`, so this attribute access raises
        -- AttributeError for EVERY existing target (file or directory),
        -- before the `.part` file is even created.
        (.error (.attributeError "stat_result object has no attribute mode"), fs0)
    | none =>
        match frames with
        | .error e =>
            -- the `finally` clause unlinks the partially written tmp_file
            (.error e, { fs0 with part := none })
        | .ok payloads =>
            -- tmp written, prior target unlinked (absent here), tmp renamed
            -- onto target, mtime set from the remote stat; the
            -- finally-unlink of tmp_file fails silently after the rename
            (.ok (), { target := some (.lfile payloads.flatten statMtime), part := none })

/-- C10: `sync_push` first issues a STAT for the remote path and, whenever
the returned mode is nonzero and denotes a directory, raises an error
before sending any SEND request or DATA chunk: the message list is exactly
the STAT request, so the remote tree is untouched. -/
theorem C10_push_refuses_directory_before_send
    (remote_file : String) (statMode : Nat) (src : PushSource)
    (status : Except PyErr Unit)
    (h0 : statMode ≠ 0) (hd : S_ISDIR statMode = true) :
    sync_push statMode src remote_file status =
      ([.statReq remote_file],
       .error (.adbError ("Cannot push onto " ++ remote_file ++ ": is S_ISDIR"))) := by
  unfold sync_push
  rw [if_pos ⟨h0, hd⟩]

/-- Witness for C10 at a concrete input: mode `0o040755` is a nonzero
directory mode, and the push emits only the STAT request and fails. -/
theorem C10_push_refuses_directory_before_send_witness :
    sync_push 0o040755 (.stream [1, 2, 3]) "/sdcard/d" (.ok ()) =
      ([.statReq "/sdcard/d"],
       .error (.adbError ("Cannot push onto " ++ "/sdcard/d" ++ ": is S_ISDIR"))) :=
  C10_push_refuses_directory_before_send "/sdcard/d" 0o040755 (.stream [1, 2, 3])
    (.ok ()) (by decide) (by decide)

/-- C5: the claim says every pull to a filesystem path writes the data to
`<target>.part` first and, on success, unlinks the prior target and renames
the `.part` file into place.  Evaluating the code at the failing input — a
pull (remote mode `0o100644`, remote mtime 5) onto a target where a regular
file already exists — shows it instead raises AttributeError (line 346
reads `st.mode`; the stat field is `st_mode`) before any data is written:
no `.part` file is created and the filesystem is untouched, so the claimed
overwrite path is unreachable whenever a prior target exists. -/
theorem C5_pull_crashes_on_existing_target :
    sync_pull_to_path 0o100644 5 "/sdcard/a"
        { target := some (.lfile [1] 0), part := none } (.ok [[2, 2]]) =
      (.error (.attributeError "stat_result object has no attribute mode"),
       { target := some (.lfile [1] 0), part := none }) := by
  rfl

/-- Sanity: with no pre-existing target, a successful pull installs the
joined payloads at the target with the remote mtime and leaves no `.part`
file behind. -/
theorem pull_fresh_target_success :
    sync_pull_to_path 0o100644 7 "/sdcard/a"
        { target := none, part := none } (.ok [[1, 2], [3]]) =
      (.ok (), { target := some (.lfile [1, 2, 3] 7), part := none }) := by
  rfl

/-- Sanity: a transfer failure on a fresh target removes the `.part` file
and leaves no target. -/
theorem pull_fresh_target_failure :
    sync_pull_to_path 0o100644 7 "/sdcard/a"
        { target := none, part := some [9] }
        (.error (.protocolError "truncated frame")) =
      (.error (.protocolError "truncated frame"),
       { target := none, part := none }) := by
  rfl

/-!  ### 4.G Sidecar DB load: `_get_db` (rsync.py lines 132-142)

```python
def _get_db(device, remote_folder):
    outf = StringIO()
    try:
        with device.sync_transaction() as sock:
            device.sync_pull(sock, posixjoin(remote_folder, _DB_NAME), outf)
            db = pickle.loads(outf.getvalue())
            return db
    except adb.AdbError:
        return {}
```

The pull target is a `StringIO`, so `sync_pull` takes its file-like branch:
the errors it can raise are the `AdbError`s of its mode checks (absent
blob: mode 0; not a regular file) and transport/protocol failures of the
framed reads.  `pickle.loads` is modelled on an abstract blob: a
well-formed blob decodes to its mapping, a malformed one raises
`pickle.UnpicklingError` — which is not a subclass of `AdbError`, so the
`except adb.AdbError` clause does not catch it. -/

/-- The remote blob as fetched: either a well-formed pickle of a DB or
garbage bytes. -/
inductive Blob
  | wellFormed (db : DB)
  | garbage (msg : String)
deriving Repr, DecidableEq

/-- `pickle.loads` on the abstract blob. -/
def pickleLoads : Blob → Except PyErr DB
  | .wellFormed db => .ok db
  | .garbage m => .error (.unpicklingError m)

/-- `_get_db(device, remote_folder)` (rsync.py lines 132-142).  `statMode`
is the mode the device reports for `<remote_folder>/files.pickle` inside
`sync_pull`'s stat (0 = absent); `blob` is what the pull wrote into the
`StringIO` when the pull succeeds.  The `try` body runs the pull and then
`pickle.loads`; only `adb.AdbError` is caught and turned into `{}`. -/
def _get_db (statMode : Nat) (blob : Blob) : Except PyErr DB :=
  let body : Except PyErr DB :=
    if statMode = 0 then
      .error (.adbError "Cannot pull: file does not exist")
    else if ¬ S_ISREG statMode = true then
      .error (.adbError "Cannot pull: not S_ISREG")
    else
      pickleLoads blob
  match body with
  | .error (.adbError _) => .ok []
  | r => r

/-- C3 counterexample: the claim says any error while fetching *or
decoding* the blob degrades to an empty mapping.  At the concrete input
where the blob exists (mode `0o100644`) but is corrupt, `pickle.loads`
raises `UnpicklingError`, which the `except adb.AdbError` clause does not
catch: the load propagates the failure instead of returning `{}`. -/
theorem C3_corrupt_blob_propagates :
    _get_db 0o100644 (.garbage "corrupt") =
        .error (.unpicklingError "corrupt") ∧
      _get_db 0o100644 (.garbage "corrupt") ≠ .ok ([] : DB) := by
  refine ⟨rfl, fun h => ?_⟩
  rw [show _get_db 0o100644 (Blob.garbage "corrupt") =
      Except.error (PyErr.unpicklingError "corrupt") from rfl] at h
  exact Except.noConfusion h

/-- C3 amended: absence of the blob, or any `AdbError` raised while
fetching it, degrades silently to an empty DB; a well-formed blob decodes
to its mapping; but a decode failure on a fetched blob raises an error that
is not an `AdbError` and therefore propagates out of the load. -/
theorem C3_get_db_amended (statMode : Nat) (blob : Blob) :
    (statMode = 0 → _get_db statMode blob = .ok []) ∧
    (¬ S_ISREG statMode = true → _get_db statMode blob = .ok []) ∧
    (statMode ≠ 0 → S_ISREG statMode = true →
      _get_db statMode blob =
        match blob with
        | .wellFormed db => .ok db
        | .garbage m => .error (.unpicklingError m)) := by
  refine ⟨?_, ?_, ?_⟩
  · intro h; simp [_get_db, h]
  · intro h
    unfold _get_db
    by_cases h0 : statMode = 0
    · simp [h0]
    · simp [h0, h]
  · intro h0 hreg
    unfold _get_db
    rw [if_neg h0, if_neg (by simp [hreg])]
    cases blob <;> rfl

/-- Witness for C3's amended statement at concrete inputs: an absent blob
(mode 0) loads as the empty DB, and a present well-formed blob (mode
`0o100644`) loads as its mapping. -/
theorem C3_get_db_amended_witness :
    _get_db 0 (.wellFormed [("a", 1, 2)]) = .ok [] ∧
      _get_db 0o100644 (.wellFormed [("a", 1, 2)]) = .ok [("a", 1, 2)] :=
  ⟨(C3_get_db_amended 0 (.wellFormed [("a", 1, 2)])).1 rfl,
   (C3_get_db_amended 0o100644 (.wellFormed [("a", 1, 2)])).2.2
     (by decide) (by decide)⟩

/-!  ### 4.B Host client: device-list parsing, `adb_get_devices`
(adb.py lines 121-140)

```python
for line in reply.split('\n'):
    if not line: continue
    device_data = line.split(None, 3)
    serial, state = device_data[0:2]
    try: devpath = device_data[2]
    except IndexError: devpath = ""
    try: notes = device_data[4]
    except IndexError: notes = ""
    device = AdbDevice(serial, state, devpath, notes)
```

`str.split(None, maxsplit)` is embedded with CPython's whitespace-split
algorithm: skip leading whitespace, emit up to `maxsplit` maximal
non-whitespace runs, then (after skipping whitespace once more) emit the
untouched remainder, if non-empty, as the final element. -/

/-- Python's `str.isspace` characters relevant to `split(None, ...)`. -/
def pyIsSpace (c : Char) : Bool :=
  c == ' ' || c == '\t' || c == '\n' || c == '\r' || c == '\x0b' || c == '\x0c'

/-- Skip a leading whitespace run. -/
def dropWs : List Char → List Char
  | [] => []
  | c :: cs => if pyIsSpace c then dropWs cs else c :: cs

/-- Take a maximal non-whitespace run, returning `(token, rest)`. -/
def takeTok : List Char → List Char × List Char
  | [] => ([], [])
  | c :: cs =>
    if pyIsSpace c then ([], c :: cs)
    else
      let (t, r) := takeTok cs
      (c :: t, r)

/-- `s.split(None, maxsplit)` on character lists: CPython's
`split_whitespace` with a maximum split count. -/
def pySplitGo : Nat → List Char → List (List Char)
  | 0, s =>
    let rest := dropWs s
    if rest.isEmpty then [] else [rest]
  | m + 1, s =>
    match dropWs s with
    | [] => []
    | c :: cs =>
      (takeTok (c :: cs)).1 :: pySplitGo m (takeTok (c :: cs)).2

/-- `line.split(None, maxsplit)`. -/
def pySplitWs (s : String) (maxsplit : Nat) : List String :=
  (pySplitGo maxsplit s.data).map String.mk

/-- The device descriptor `AdbDevice(serial, state, devpath, notes)`
(adb.py lines 151-157); only the four constructor fields are modelled. -/
structure AdbDeviceRec where
  serial : String
  state : String
  devpath : String
  notes : String
deriving Repr, DecidableEq

/-- One iteration of the parsing loop of `adb_get_devices` on a non-empty
line.  `device_data[0:2]` unpacking fails with ValueError when the line has
fewer than two fields; `device_data[2]` and `device_data[4]` are guarded by
`except IndexError` clauses that default to the empty string. -/
def parseDeviceLine (line : String) : Except PyErr AdbDeviceRec :=
  let device_data := pySplitWs line 3
  match device_data with
  | serial :: state :: _ =>
    let devpath := device_data.getD 2 ""
    let notes := device_data.getD 4 ""
    .ok ⟨serial, state, devpath, notes⟩
  | _ => .error (.valueError "need more than 1 value to unpack")

/-- The line loop of `adb_get_devices` (adb.py lines 129-140): one record
per non-empty line of the reply. -/
def parseDevices : List String → Except PyErr (List AdbDeviceRec)
  | [] => .ok []
  | line :: rest =>
    if line = "" then parseDevices rest
    else do
      let d ← parseDeviceLine line
      let ds ← parseDevices rest
      pure (d :: ds)

/-- `adb_get_devices` applied to the `host:devices-l` reply text. -/
def adb_get_devices (reply : String) : Except PyErr (List AdbDeviceRec) :=
  parseDevices (reply.splitOn "\n")

/-- `split(None, m)` yields at most `m + 1` fields. -/
theorem pySplitGo_length_le (m : Nat) :
    ∀ s : List Char, (pySplitGo m s).length ≤ m + 1 := by
  induction m with
  | zero =>
    intro s
    simp only [pySplitGo]
    by_cases h : (dropWs s).isEmpty <;> simp [h]
  | succ m ih =>
    intro s
    simp only [pySplitGo]
    cases hds : dropWs s with
    | nil => simp
    | cons c cs =>
      simpa [Nat.succ_le_succ_iff] using ih (takeTok (c :: cs)).2

/-- C7: the claim says the remaining tail of the line (when present)
becomes `notes`.  The code instead reads `device_data[4]` from a list of at
most four elements (`split(None, 3)`), so the IndexError default always
fires and `notes` is always the empty string; at the concrete failing line
`"X123  device usb:1-2 product:foo model:bar"` the tail
`"product:foo model:bar"` is dropped. -/
theorem C7_device_notes_always_dropped :
    (∀ line, match parseDeviceLine line with
      | .ok r => r.notes = ""
      | .error _ => True) ∧
      parseDeviceLine "X123  device usb:1-2 product:foo model:bar" =
        .ok ⟨"X123", "device", "usb:1-2", ""⟩ := by
  constructor
  · intro line
    cases hres : parseDeviceLine line with
    | error e => trivial
    | ok r =>
    show r.notes = ""
    have h := hres
    simp only [parseDeviceLine] at h
    have hlen : (pySplitWs line 3).length ≤ 4 := by
      simpa [pySplitWs] using pySplitGo_length_le 3 line.data
    cases hdd : pySplitWs line 3 with
    | nil => rw [hdd] at h; exact absurd h (by simp)
    | cons a tl =>
      cases tl with
      | nil => rw [hdd] at h; exact absurd h (by simp)
      | cons b tl2 =>
        rw [hdd] at h hlen
        simp only [List.length_cons] at hlen
        have h4 : (a :: b :: tl2).getD 4 "" = "" := by
          apply List.getD_eq_default
          simp only [List.length_cons]
          omega
        simp only [h4] at h
        injection h with h'
        rw [← h']
  · rfl

/-!  ### 4.H Reconciliation engine (rsync.py lines 205-365)

The planning loop's per-directory body (lines 258-305) is embedded as
`classifyFiles` / `classifyDirs` over one paired `(l_root, l_dirs,
l_files)` / `(r_root, r_dirs, r_files)` step of the zipped walks; the
execute phase (lines 307-365) as a trace of `Event`s.  Python set
iteration order is unspecified; the embedding iterates sets in dictionary
insertion order (see the file header).  `progress(...)` writes to the
console only; it is modelled as a payload-free `.report` event. -/

/-- `_DB_NAME = 'files.pickle'` (rsync.py line 46). -/
def _DB_NAME : String := "files.pickle"

/-- Accumulated plan and working state of the planning loop (rsync.py
lines 243-246 and the `db_mtimes` dict of line 224). -/
structure PlanState where
  to_add : List (String × Dirent × String)
  to_remove : List String
  to_remove_dir : List String
  new_db : DB
  db_mtimes : List (String × Int)
deriving Repr, DecidableEq

/-- `db_mtimes = dict((name, mtime) for (name, (mtime, size)) in db)`
(rsync.py line 224). -/
def seedMtimes (db : DB) : List (String × Int) :=
  db.map (fun p => (p.1, p.2.1))

/-- The canonical db key of a remote path: the path relative to the sync
root, lowercased — `("%s/%s" % (r_root, name))[len(remote_folder)+1:]
.lower()` (rsync.py lines 273-274 and 346). -/
def canonKey (remote_folder path : String) : String :=
  pyLower (path.drop (remote_folder.length + 1))

/-- `_different(l_dirent, r_dirent, r_mtime)` (rsync.py lines 236-241). -/
def _different (l_dirent r_dirent : Dirent) (r_mtime : Int) : Bool :=
  if l_dirent.size ≠ r_dirent.size then true
  else if 5 < |l_dirent.mtime - r_mtime| then true
  else false

/-- The dict half of `_to_dct_and_set` (rsync.py lines 231-234):
`dict((de.name.lower(), de) for de in dirents)`; later entries overwrite
earlier ones.  The set half is `keysOf` of this dict. -/
def _to_dct (dirents : List Dirent) : List (String × Dirent) :=
  dirents.foldl (fun d de => dctInsert d (pyLower de.name) de) []

/-- The key set of a dict, in insertion order. -/
def keysOf {α : Type} (m : List (String × α)) : List String :=
  m.map Prod.fst

/-- Set difference `a - b` iterated in `a`'s order. -/
def setDiff (a b : List String) : List String :=
  a.filter (fun k => ¬ b.contains k)

/-- Set intersection `a & b` iterated in `a`'s order. -/
def setInter (a b : List String) : List String :=
  a.filter (fun k => b.contains k)

/-- The body of `for common in r_files_set & l_files_set` (rsync.py lines
271-288): build the canonical db key, refresh `db_mtimes[db_key]` from the
observed remote mtime when `can_use_mtime`, then either plan an `AddFile`
(when `_different`) or carry the DB entry into `new_db`, manufacturing one
if the DB lacks it. -/
def commonStep (remote_folder l_root r_root : String) (can_use_mtime : Bool)
    (db : DB) (st : PlanState) (common : String) (l_dirent r_dirent : Dirent) :
    PlanState :=
  let db_key := canonKey remote_folder (r_root ++ "/" ++ common)
  let st :=
    if can_use_mtime then
      { st with db_mtimes := dctInsert st.db_mtimes db_key r_dirent.mtime }
    else st
  if _different l_dirent r_dirent (dctGetD st.db_mtimes db_key 0) = true then
    { st with to_add := st.to_add ++ [(l_root, l_dirent, r_root)] }
  else
    let entry :=
      match dctGet? db db_key with
      | some e => e
      | none =>
        ((if can_use_mtime then r_dirent.mtime else l_dirent.mtime), r_dirent.size)
    { st with new_db := dctInsert st.new_db db_key entry }

/-- Body of `for missing in l_files_set - r_files_set` (rsync.py lines
262-263): plan an `AddFile` for a local-only file.  The `none` branch of
the dict lookup is unreachable (the keys come from the dict itself). -/
def missingFilesStep (l_root r_root : String)
    (l_dct : List (String × Dirent)) (st : PlanState) (missing : String) :
    PlanState :=
  match dctGet? l_dct missing with
  | some de => { st with to_add := st.to_add ++ [(l_root, de, r_root)] }
  | none => st

/-- `for missing in l_files_set - r_files_set` (rsync.py lines 262-263). -/
def missingFilesLoop (l_root r_root : String) (l_dct : List (String × Dirent))
    (keys : List String) (st : PlanState) : PlanState :=
  keys.foldl (missingFilesStep l_root r_root l_dct) st

/-- Body of `for extra in r_files_set - l_files_set` (rsync.py lines
265-269): plan a `RemoveFile` for a remote-only file, except the mtime DB
blob when at the sync root. -/
def extraFilesStep (remote_folder r_root : String)
    (r_dct : List (String × Dirent)) (st : PlanState) (extra : String) :
    PlanState :=
  if extra = _DB_NAME ∧ r_root = remote_folder then st
  else
    match dctGet? r_dct extra with
    | some de =>
      { st with to_remove := st.to_remove ++ [r_root ++ "/" ++ de.name] }
    | none => st

/-- `for extra in r_files_set - l_files_set` (rsync.py lines 265-269). -/
def extraFilesLoop (remote_folder r_root : String)
    (r_dct : List (String × Dirent)) (keys : List String) (st : PlanState) :
    PlanState :=
  keys.foldl (extraFilesStep remote_folder r_root r_dct) st

/-- Body of `for common in r_files_set & l_files_set` (rsync.py lines
271-288): both dict lookups succeed (the keys come from the intersection)
and the pair goes through `commonStep`. -/
def commonFilesStep (remote_folder l_root r_root : String)
    (can_use_mtime : Bool) (db : DB) (l_dct r_dct : List (String × Dirent))
    (st : PlanState) (common : String) : PlanState :=
  match dctGet? l_dct common, dctGet? r_dct common with
  | some l_de, some r_de =>
    commonStep remote_folder l_root r_root can_use_mtime db st common l_de r_de
  | _, _ => st

/-- `for common in r_files_set & l_files_set` (rsync.py lines 271-288). -/
def commonFilesLoop (remote_folder l_root r_root : String)
    (can_use_mtime : Bool) (db : DB) (l_dct r_dct : List (String × Dirent))
    (keys : List String) (st : PlanState) : PlanState :=
  keys.foldl (commonFilesStep remote_folder l_root r_root can_use_mtime db
    l_dct r_dct) st

/-- The file-classification part of the planning loop body (rsync.py lines
258-288): files only local are planned as adds; files only remote are
planned as removals, except the DB blob when at the sync root; files in
both go through `commonStep`. -/
def classifyFiles (remote_folder l_root r_root : String) (can_use_mtime : Bool)
    (db : DB) (st : PlanState) (l_files r_files : List Dirent) : PlanState :=
  let l_dct := _to_dct l_files
  let r_dct := _to_dct r_files
  let l_set := keysOf l_dct
  let r_set := keysOf r_dct
  let st := missingFilesLoop l_root r_root l_dct (setDiff l_set r_set) st
  let st := extraFilesLoop remote_folder r_root r_dct (setDiff r_set l_set) st
  commonFilesLoop remote_folder l_root r_root can_use_mtime db l_dct r_dct
    (setInter r_set l_set) st

/-- The directory-classification part of the planning loop body (rsync.py
lines 291-305).  Dirs missing on the remote are pretended to exist as
empty — the source manufactures `adb.dirent(None, None, None, name)`; only
the `.name` of such a placeholder is ever read, so the `None` fields are
modelled as zeroes.  Extra remote dirs are planned as `RemoveDir`; both
live dir lists are rewritten to the common dirs in matching order.
Returns the updated state and the rewritten `(l_dirs, r_dirs)`. -/
def classifyDirs (l_root r_root : String) (st : PlanState)
    (l_dirs r_dirs : List Dirent) : PlanState × List Dirent × List Dirent :=
  let l_dct := _to_dct l_dirs
  let r_dct := _to_dct r_dirs
  let l_set := keysOf l_dct
  let r_set := keysOf r_dct
  let r_dct :=
    (setDiff l_set r_set).foldl (fun m missing =>
      match dctGet? l_dct missing with
      | some de => dctInsert m missing (Dirent.mk 0 0 0 de.name)
      | none => m) r_dct
  let r_set := keysOf r_dct
  let st :=
    (setDiff r_set l_set).foldl (fun st extra =>
      match dctGet? r_dct extra with
      | some de =>
        { st with to_remove_dir := st.to_remove_dir ++ [r_root ++ "/" ++ de.name] }
      | none => st) st
  let common := setInter r_set l_set
  (st, common.filterMap (fun k => dctGet? l_dct k),
       common.filterMap (fun k => dctGet? r_dct k))

/-- Observable effects of `rsync` beyond pure planning.  `report` stands
for a `progress(...)` console line (payload not modelled: cosmetics
only). -/
inductive Event
  | pullDb                        -- _get_db's sync_pull of the sidecar blob
  | probeMtime                    -- device.does_mtime_work() shell probe
  | dbPush (db : DB)              -- _put_db(device, sock, remote_folder, db)
  | rmdirCmd (path : String)      -- device.simple_shell("rm -r '<path>'")
  | rmCmd (path : String)         -- device.simple_shell("rm '<path>'")
  | pushFile (local_path remote_path : String)  -- device.sync_push
  | warn (msg : String)           -- the warning callback
  | report                        -- progress(...)
deriving Repr, DecidableEq

/-- The `for r_full in to_remove_dir` loop (rsync.py lines 323-329):
progress line, then the hardcoded `'/sdcard/dfp'` guard — outside it, warn
and skip; inside it, `rm -r` via the shell. -/
def rmdirPhase (items : List String) : List Event :=
  items.flatMap (fun r_full =>
    Event.report ::
      (if pyStartsWith r_full "/sdcard/dfp" then [Event.rmdirCmd r_full]
       else [Event.warn ("Trying to rmdir " ++ r_full ++ ": do it by hand instead.")]))

/-- The `for r_full in to_remove` loop (rsync.py lines 331-334). -/
def rmPhase (items : List String) : List Event :=
  items.flatMap (fun r_full => [Event.report, Event.rmCmd r_full])

/-- The `for (l_root, l_dirent, r_root) in to_add` loop (rsync.py lines
343-363): update `new_db`, push the file, progress line, and autosave the
DB when the `AUTOSAVE_INTERVAL` timer has expired.  The timer outcomes are
an oracle `saves : List Bool` (one decision per item; exhaustion means the
timer never fires).  Returns the events and the final `new_db`. -/
def addPhase (remote_folder : String) :
    List (String × Dirent × String) → DB → List Bool → List Event × DB
  | [], db, _ => ([], db)
  | (l_root, l_dirent, r_root) :: rest, db, saves =>
    let db' := dctInsert db
      (canonKey remote_folder (r_root ++ "/" ++ l_dirent.name))
      (l_dirent.mtime, l_dirent.size)
    ([Event.pushFile (l_root ++ "/" ++ l_dirent.name)
        (r_root ++ "/" ++ l_dirent.name), Event.report] ++
       (if saves.headD false then [Event.dbPush db'] else []) ++
       (addPhase remote_folder rest db' saves.tail).1,
     (addPhase remote_folder rest db' saves.tail).2)

/-- The execute phase of `rsync` (rsync.py lines 318-365): inside one sync
transaction, checkpoint `new_db`, run the removal loops, then the add loop
(with a "Copying ..." progress line when there is anything to add), and a
final DB push. -/
def execPhase (remote_folder : String) (to_remove_dir to_remove : List String)
    (to_add : List (String × Dirent × String)) (new_db : DB)
    (saves : List Bool) : List Event :=
  Event.dbPush new_db ::
    (rmdirPhase to_remove_dir ++ rmPhase to_remove ++
      (if to_add.length ≠ 0 then [Event.report] else []) ++
      (addPhase remote_folder to_add new_db saves).1 ++
      [Event.dbPush (addPhase remote_folder to_add new_db saves).2])

/-- The effect trace of one `rsync(...)` call (rsync.py lines 205-365).
The planning loop's own effects are reads — the sidecar pull, the mtime
probe, LIST traffic — plus a progress line; its pure outputs (the plan
lists and `new_db`) are taken as parameters here and are computed by
`classifyFiles` / `classifyDirs` above.  With `trial_run`, only up to
three summary progress lines are emitted (rsync.py lines 307-316) and the
call returns before the sync transaction is opened. -/
def rsyncTrace (trial_run : Bool) (remote_folder : String)
    (to_remove_dir to_remove : List String)
    (to_add : List (String × Dirent × String)) (new_db : DB)
    (saves : List Bool) : List Event :=
  [Event.pullDb, Event.probeMtime, Event.report] ++
    (if trial_run then
      (if to_remove_dir.length ≠ 0 then [Event.report] else []) ++
      (if to_remove.length ≠ 0 then [Event.report] else []) ++
      (if to_add.length ≠ 0 then [Event.report] else [])
    else
      execPhase remote_folder to_remove_dir to_remove to_add new_db saves)

/-! ### Theorems about the reconciliation engine -/

theorem _different_eq_true_iff (l r : Dirent) (m : Int) :
    _different l r m = true ↔ (l.size ≠ r.size ∨ 5 < |l.mtime - m|) := by
  unfold _different
  by_cases h1 : l.size ≠ r.size
  · simp [h1]
  · by_cases h2 : 5 < |l.mtime - m| <;> simp [h1, h2]

theorem dctGet_seedMtimes (db : DB) (k : String) :
    dctGet? (seedMtimes db) k = (dctGet? db k).map Prod.fst := by
  induction db with
  | nil => rfl
  | cons p db ih =>
    obtain ⟨a, b⟩ := p
    by_cases h : k = a
    · simp [seedMtimes, dctGet?, List.lookup, h]
    · have hk : (k == a) = false := beq_eq_false_iff_ne.mpr h
      simpa [seedMtimes, dctGet?, List.lookup, hk] using ih

/-- `commonStep` leaves `db_mtimes` at the refreshed map: the observed
remote mtime is written exactly when `can_use_mtime`. -/
theorem commonStep_db_mtimes (remote_folder l_root r_root : String)
    (can_use_mtime : Bool) (db : DB) (st : PlanState) (common : String)
    (l_dirent r_dirent : Dirent) :
    (commonStep remote_folder l_root r_root can_use_mtime db st common
        l_dirent r_dirent).db_mtimes
      = if can_use_mtime then
          dctInsert st.db_mtimes
            (canonKey remote_folder (r_root ++ "/" ++ common))
            r_dirent.mtime
        else st.db_mtimes := by
  unfold commonStep
  cases can_use_mtime <;> simp only [Bool.false_eq_true, if_false, if_true] <;>
    split <;> rfl

/-- `commonStep` appends the `AddFile` exactly when `_different` holds of
the refreshed tracked mtime. -/
theorem commonStep_to_add (remote_folder l_root r_root : String)
    (can_use_mtime : Bool) (db : DB) (st : PlanState) (common : String)
    (l_dirent r_dirent : Dirent) :
    (commonStep remote_folder l_root r_root can_use_mtime db st common
        l_dirent r_dirent).to_add
      = st.to_add ++
          (if _different l_dirent r_dirent
              (dctGetD
                (if can_use_mtime then
                  dctInsert st.db_mtimes
                    (canonKey remote_folder (r_root ++ "/" ++ common))
                    r_dirent.mtime
                 else st.db_mtimes)
                (canonKey remote_folder (r_root ++ "/" ++ common)) 0) = true
           then [(l_root, l_dirent, r_root)] else []) := by
  unfold commonStep
  cases can_use_mtime <;> simp only [Bool.false_eq_true, if_false, if_true] <;>
    split <;> simp_all

/-- C2: for a file present in both walks, the engine plans an `AddFile`
for the pair if and only if the sizes differ or the absolute difference
between the local mtime and the tracked remote mtime exceeds 5 seconds.
The tracked remote mtime is the `db_mtimes` value for the canonical key
(seeded from the sidecar DB, 0 if missing) and is refreshed from the
observed remote mtime before the check exactly when `does_mtime_work()`
(`can_use_mtime`) is true — the second and third conjuncts. -/
theorem C2_different_classification (remote_folder l_root r_root : String)
    (can_use_mtime : Bool) (db : DB) (st : PlanState) (common : String)
    (l_dirent r_dirent : Dirent) :
    let db_key := canonKey remote_folder (r_root ++ "/" ++ common)
    let tracked : Int :=
      if can_use_mtime then r_dirent.mtime else dctGetD st.db_mtimes db_key 0
    (commonStep remote_folder l_root r_root can_use_mtime db st common
        l_dirent r_dirent).to_add
      = st.to_add ++
          (if l_dirent.size ≠ r_dirent.size ∨ 5 < |l_dirent.mtime - tracked|
           then [(l_root, l_dirent, r_root)] else [])
    ∧ dctGetD (commonStep remote_folder l_root r_root can_use_mtime db st
        common l_dirent r_dirent).db_mtimes db_key 0 = tracked
    ∧ dctGet? (seedMtimes db) db_key = (dctGet? db db_key).map Prod.fst := by
  intro db_key tracked
  have hrefresh :
      dctGetD
        (if can_use_mtime then dctInsert st.db_mtimes db_key r_dirent.mtime
         else st.db_mtimes) db_key 0 = tracked := by
    cases can_use_mtime with
    | false => rfl
    | true => simp [dctGetD, dctGet_insert_self, tracked]
  refine ⟨?_, ?_, dctGet_seedMtimes db db_key⟩
  · rw [commonStep_to_add remote_folder l_root r_root can_use_mtime db st
      common l_dirent r_dirent]
    congr 1
    rw [show canonKey remote_folder (r_root ++ "/" ++ common) = db_key
      from rfl] at *
    rw [hrefresh]
    by_cases hp : l_dirent.size ≠ r_dirent.size ∨ 5 < |l_dirent.mtime - tracked|
    · rw [if_pos ((_different_eq_true_iff _ _ _).mpr hp), if_pos hp]
    · rw [if_neg (fun hc => hp ((_different_eq_true_iff _ _ _).mp hc)),
        if_neg hp]
  · rw [commonStep_db_mtimes remote_folder l_root r_root can_use_mtime db st
      common l_dirent r_dirent]
    exact hrefresh

/-! ### Structural lemmas about the plan loops and the effect trace -/

theorem lookup_eq_some_mem {α : Type} {m : List (String × α)} {k : String}
    {v : α} (h : List.lookup k m = some v) : (k, v) ∈ m := by
  induction m with
  | nil => simp [List.lookup] at h
  | cons p m ih =>
    obtain ⟨a, b⟩ := p
    by_cases hk : k = a
    · subst hk
      simp [List.lookup] at h
      subst h
      exact List.mem_cons_self _ _
    · have hk' : (k == a) = false := beq_eq_false_iff_ne.mpr hk
      simp only [List.lookup, hk'] at h
      exact List.mem_cons_of_mem _ (ih h)

theorem mem_dctInsert {α : Type} {m : List (String × α)} {k : String} {v : α}
    {q : String × α} (h : q ∈ dctInsert m k v) : q = (k, v) ∨ q ∈ m := by
  unfold dctInsert at h
  rcases List.mem_append.mp h with h | h
  · exact Or.inr (List.mem_of_mem_filter h)
  · simp only [List.mem_singleton] at h
    exact Or.inl h

theorem _to_dct_key_aux :
    ∀ (files : List Dirent) (acc : List (String × Dirent)),
      (∀ q ∈ acc, q.1 = pyLower q.2.name) →
      ∀ q ∈ files.foldl (fun d de => dctInsert d (pyLower de.name) de) acc,
        q.1 = pyLower q.2.name
  | [], _, hacc => hacc
  | de :: files, acc, hacc => by
    simp only [List.foldl_cons]
    apply _to_dct_key_aux files
    intro q hq
    rcases mem_dctInsert hq with h | h
    · rw [h]
    · exact hacc q h

/-- Every binding of a `_to_dct` dict has the lowercased name of its dirent
as its key. -/
theorem _to_dct_key {files : List Dirent} {q : String × Dirent}
    (h : q ∈ _to_dct files) : q.1 = pyLower q.2.name :=
  _to_dct_key_aux files [] (by simp) q h

theorem string_append_cancel_left {a b c : String} (h : a ++ b = a ++ c) :
    b = c := by
  apply String.ext
  have hd := congrArg String.data h
  simp only [String.data_append] at hd
  exact List.append_cancel_left hd

theorem commonStep_to_remove (remote_folder l_root r_root : String)
    (can_use_mtime : Bool) (db : DB) (st : PlanState) (common : String)
    (l_dirent r_dirent : Dirent) :
    (commonStep remote_folder l_root r_root can_use_mtime db st common
        l_dirent r_dirent).to_remove = st.to_remove := by
  unfold commonStep
  cases can_use_mtime <;> simp only [Bool.false_eq_true, if_false, if_true] <;>
    split <;> rfl

theorem missingFilesStep_to_remove (l_root r_root : String)
    (l_dct : List (String × Dirent)) (st : PlanState) (k : String) :
    (missingFilesStep l_root r_root l_dct st k).to_remove = st.to_remove := by
  unfold missingFilesStep
  cases dctGet? l_dct k <;> rfl

theorem missingFilesLoop_to_remove (l_root r_root : String)
    (l_dct : List (String × Dirent)) :
    ∀ (keys : List String) (st : PlanState),
      (missingFilesLoop l_root r_root l_dct keys st).to_remove = st.to_remove
  | [], _ => rfl
  | k :: keys, st => by
    show (missingFilesLoop l_root r_root l_dct keys
      (missingFilesStep l_root r_root l_dct st k)).to_remove = st.to_remove
    rw [missingFilesLoop_to_remove l_root r_root l_dct keys,
      missingFilesStep_to_remove]

theorem commonFilesStep_to_remove (remote_folder l_root r_root : String)
    (can_use_mtime : Bool) (db : DB) (l_dct r_dct : List (String × Dirent))
    (st : PlanState) (k : String) :
    (commonFilesStep remote_folder l_root r_root can_use_mtime db l_dct r_dct
      st k).to_remove = st.to_remove := by
  unfold commonFilesStep
  cases hl : dctGet? l_dct k <;> cases hr : dctGet? r_dct k
  · rfl
  · rfl
  · rfl
  · exact commonStep_to_remove remote_folder l_root r_root can_use_mtime db
      st k _ _

theorem commonFilesLoop_to_remove (remote_folder l_root r_root : String)
    (can_use_mtime : Bool) (db : DB) (l_dct r_dct : List (String × Dirent)) :
    ∀ (keys : List String) (st : PlanState),
      (commonFilesLoop remote_folder l_root r_root can_use_mtime db l_dct
        r_dct keys st).to_remove = st.to_remove
  | [], _ => rfl
  | k :: keys, st => by
    show (commonFilesLoop remote_folder l_root r_root can_use_mtime db l_dct
      r_dct keys (commonFilesStep remote_folder l_root r_root can_use_mtime db
        l_dct r_dct st k)).to_remove = st.to_remove
    rw [commonFilesLoop_to_remove remote_folder l_root r_root can_use_mtime db
      l_dct r_dct keys, commonFilesStep_to_remove]

theorem extraFilesStep_root_preserves (remote_folder : String)
    (r_dct : List (String × Dirent))
    (hdct : ∀ q ∈ r_dct, q.1 = pyLower q.2.name)
    (st : PlanState) (k : String)
    (h : remote_folder ++ "/" ++ _DB_NAME ∉ st.to_remove) :
    remote_folder ++ "/" ++ _DB_NAME ∉
      (extraFilesStep remote_folder remote_folder r_dct st k).to_remove := by
  unfold extraFilesStep
  by_cases hk : k = _DB_NAME
  · rw [if_pos ⟨hk, rfl⟩]
    exact h
  · rw [if_neg (fun hc => hk hc.1)]
    cases hget : dctGet? r_dct k with
    | none => exact h
    | some de =>
      simp only [List.mem_append, List.mem_singleton, not_or]
      refine ⟨h, fun he => hk ?_⟩
      have hname : de.name = _DB_NAME :=
        (string_append_cancel_left he).symm
      have hkey : k = pyLower de.name :=
        hdct (k, de) (lookup_eq_some_mem hget)
      rw [hkey, hname]
      decide

theorem extraFilesLoop_root_preserves (remote_folder : String)
    (r_dct : List (String × Dirent))
    (hdct : ∀ q ∈ r_dct, q.1 = pyLower q.2.name) :
    ∀ (keys : List String) (st : PlanState),
      remote_folder ++ "/" ++ _DB_NAME ∉ st.to_remove →
      remote_folder ++ "/" ++ _DB_NAME ∉
        (extraFilesLoop remote_folder remote_folder r_dct keys st).to_remove
  | [], _, h => h
  | k :: keys, st, h => by
    show remote_folder ++ "/" ++ _DB_NAME ∉
      (extraFilesLoop remote_folder remote_folder r_dct keys
        (extraFilesStep remote_folder remote_folder r_dct st k)).to_remove
    exact extraFilesLoop_root_preserves remote_folder r_dct hdct keys _
      (extraFilesStep_root_preserves remote_folder r_dct hdct st k h)

theorem rmdirPhase_cons (x : String) (xs : List String) :
    rmdirPhase (x :: xs) =
      (Event.report ::
        (if pyStartsWith x "/sdcard/dfp" then [Event.rmdirCmd x]
         else
           [Event.warn ("Trying to rmdir " ++ x ++ ": do it by hand instead.")]))
        ++ rmdirPhase xs := rfl

theorem mem_rmdirPhase_shape {items : List String} {e : Event}
    (h : e ∈ rmdirPhase items) :
    e = .report ∨
      (∃ p, e = .rmdirCmd p ∧ p ∈ items ∧ pyStartsWith p "/sdcard/dfp" = true) ∨
      (∃ p, e = .warn ("Trying to rmdir " ++ p ++ ": do it by hand instead.")
        ∧ p ∈ items ∧ pyStartsWith p "/sdcard/dfp" = false) := by
  induction items with
  | nil => simp [rmdirPhase] at h
  | cons x xs ih =>
    rw [rmdirPhase_cons] at h
    rcases List.mem_append.mp h with h | h
    · rcases List.mem_cons.mp h with h | h
      · exact Or.inl h
      · by_cases hx : pyStartsWith x "/sdcard/dfp" = true
        · rw [if_pos hx] at h
          simp only [List.mem_singleton] at h
          exact Or.inr (Or.inl ⟨x, h, List.mem_cons_self _ _, hx⟩)
        · rw [if_neg hx] at h
          simp only [List.mem_singleton] at h
          exact Or.inr (Or.inr ⟨x, h, List.mem_cons_self _ _, by simpa using hx⟩)
    · rcases ih h with h | ⟨p, hp, hmem, hs⟩ | ⟨p, hp, hmem, hs⟩
      · exact Or.inl h
      · exact Or.inr (Or.inl ⟨p, hp, List.mem_cons_of_mem _ hmem, hs⟩)
      · exact Or.inr (Or.inr ⟨p, hp, List.mem_cons_of_mem _ hmem, hs⟩)

theorem rmdirCmd_mem_rmdirPhase {items : List String} {p : String}
    (hp : p ∈ items) (hs : pyStartsWith p "/sdcard/dfp" = true) :
    Event.rmdirCmd p ∈ rmdirPhase items := by
  induction items with
  | nil => simp at hp
  | cons x xs ih =>
    rw [rmdirPhase_cons]
    rcases List.mem_cons.mp hp with h | h
    · subst h
      apply List.mem_append_left
      apply List.mem_cons_of_mem
      rw [if_pos hs]
      simp
    · exact List.mem_append_right _ (ih h)

theorem warn_mem_rmdirPhase {items : List String} {p : String}
    (hp : p ∈ items) (hs : pyStartsWith p "/sdcard/dfp" = false) :
    Event.warn ("Trying to rmdir " ++ p ++ ": do it by hand instead.")
      ∈ rmdirPhase items := by
  induction items with
  | nil => simp at hp
  | cons x xs ih =>
    rw [rmdirPhase_cons]
    rcases List.mem_cons.mp hp with h | h
    · subst h
      apply List.mem_append_left
      apply List.mem_cons_of_mem
      rw [if_neg (by simp [hs])]
      simp
    · exact List.mem_append_right _ (ih h)

theorem rmPhase_cons (x : String) (xs : List String) :
    rmPhase (x :: xs) = Event.report :: Event.rmCmd x :: rmPhase xs := rfl

theorem mem_rmPhase_shape {items : List String} {e : Event}
    (h : e ∈ rmPhase items) :
    e = .report ∨ ∃ p, e = .rmCmd p ∧ p ∈ items := by
  induction items with
  | nil => simp [rmPhase] at h
  | cons x xs ih =>
    rw [rmPhase_cons] at h
    rcases List.mem_cons.mp h with h | h
    · exact Or.inl h
    rcases List.mem_cons.mp h with h | h
    · exact Or.inr ⟨x, h, List.mem_cons_self _ _⟩
    · rcases ih h with h | ⟨p, hp, hmem⟩
      · exact Or.inl h
      · exact Or.inr ⟨p, hp, List.mem_cons_of_mem _ hmem⟩

theorem rmCmd_mem_rmPhase {items : List String} {p : String} (hp : p ∈ items) :
    Event.rmCmd p ∈ rmPhase items := by
  induction items with
  | nil => simp at hp
  | cons x xs ih =>
    rw [rmPhase_cons]
    rcases List.mem_cons.mp hp with h | h
    · subst h
      exact List.mem_cons_of_mem _ (List.mem_cons_self _ _)
    · exact List.mem_cons_of_mem _ (List.mem_cons_of_mem _ (ih h))

theorem addPhase_fst_cons (remote_folder l_root r_root : String)
    (l_dirent : Dirent) (rest : List (String × Dirent × String)) (db : DB)
    (saves : List Bool) :
    (addPhase remote_folder ((l_root, l_dirent, r_root) :: rest) db saves).1 =
      [Event.pushFile (l_root ++ "/" ++ l_dirent.name)
          (r_root ++ "/" ++ l_dirent.name), Event.report] ++
        (if saves.headD false then
          [Event.dbPush (dctInsert db
            (canonKey remote_folder (r_root ++ "/" ++ l_dirent.name))
            (l_dirent.mtime, l_dirent.size))]
         else []) ++
        (addPhase remote_folder rest
          (dctInsert db
            (canonKey remote_folder (r_root ++ "/" ++ l_dirent.name))
            (l_dirent.mtime, l_dirent.size)) saves.tail).1 := rfl

theorem mem_addPhase_shape (remote_folder : String) :
    ∀ (items : List (String × Dirent × String)) (db : DB) (saves : List Bool)
      (e : Event), e ∈ (addPhase remote_folder items db saves).1 →
      (∃ a b, e = .pushFile a b) ∨ e = .report ∨ ∃ d, e = .dbPush d
  | [], _, _, _, h => by simp [addPhase] at h
  | (l_root, l_dirent, r_root) :: rest, db, saves, e, h => by
    rw [addPhase_fst_cons] at h
    rcases List.mem_append.mp h with h | h
    · rcases List.mem_append.mp h with h | h
      · rcases List.mem_cons.mp h with h | h
        · exact Or.inl ⟨_, _, h⟩
        · simp only [List.mem_singleton] at h
          exact Or.inr (Or.inl h)
      · by_cases hs : saves.headD false = true
        · rw [if_pos hs] at h
          simp only [List.mem_singleton] at h
          exact Or.inr (Or.inr ⟨_, h⟩)
        · rw [if_neg hs] at h
          simp at h
    · exact mem_addPhase_shape remote_folder rest _ _ e h

/-- The events that mutate the remote tree: shell removals and pushes of
synced files (DB checkpoint pushes and console output are not tree
mutations in the planned sense). -/
def isMutation : Event → Bool
  | .rmdirCmd _ => true
  | .rmCmd _ => true
  | .pushFile _ _ => true
  | _ => false

theorem filter_isMutation_rmdirPhase :
    ∀ items : List String,
      (rmdirPhase items).filter isMutation
        = (items.filter (fun p => pyStartsWith p "/sdcard/dfp")).map
            Event.rmdirCmd
  | [] => rfl
  | x :: xs => by
    by_cases hx : pyStartsWith x "/sdcard/dfp" = true <;>
      simp [rmdirPhase_cons, List.filter_append, List.filter_cons, hx,
        isMutation, filter_isMutation_rmdirPhase xs]

theorem filter_isMutation_rmPhase :
    ∀ items : List String,
      (rmPhase items).filter isMutation = items.map Event.rmCmd
  | [] => rfl
  | x :: xs => by
    simp [rmPhase_cons, List.filter_cons, isMutation,
      filter_isMutation_rmPhase xs]

theorem filter_isMutation_addPhase (remote_folder : String) :
    ∀ (items : List (String × Dirent × String)) (db : DB) (saves : List Bool),
      ((addPhase remote_folder items db saves).1).filter isMutation
        = items.map (fun t =>
            Event.pushFile (t.1 ++ "/" ++ t.2.1.name)
              (t.2.2 ++ "/" ++ t.2.1.name))
  | [], _, _ => rfl
  | (l_root, l_dirent, r_root) :: rest, db, saves => by
    rw [addPhase_fst_cons]
    by_cases hs : saves.headD false = true <;>
      simp [List.filter_append, List.filter_cons, isMutation, hs,
        filter_isMutation_addPhase remote_folder rest _ _]

/-- C6: in a non-trial sync, the execute phase starts with the checkpoint
push of `new_db` (before any mutation), and the tree mutations it performs
are, in order: the planned `RemoveDir`s (those the hardcoded guard admits,
in planned order), then every planned `RemoveFile`, then every planned
`AddFile` in planned order. -/
theorem C6_exec_phase_order (remote_folder : String)
    (to_remove_dir to_remove : List String)
    (to_add : List (String × Dirent × String)) (new_db : DB)
    (saves : List Bool) :
    (execPhase remote_folder to_remove_dir to_remove to_add new_db
        saves).head? = some (Event.dbPush new_db)
    ∧ (execPhase remote_folder to_remove_dir to_remove to_add new_db
        saves).filter isMutation
      = (to_remove_dir.filter (fun p => pyStartsWith p "/sdcard/dfp")).map
          Event.rmdirCmd
        ++ to_remove.map Event.rmCmd
        ++ to_add.map (fun t =>
            Event.pushFile (t.1 ++ "/" ++ t.2.1.name)
              (t.2.2 ++ "/" ++ t.2.1.name)) := by
  refine ⟨rfl, ?_⟩
  have h1 := filter_isMutation_rmdirPhase to_remove_dir
  have h2 := filter_isMutation_rmPhase to_remove
  have h3 := filter_isMutation_addPhase remote_folder to_add new_db saves
  by_cases hlen : to_add.length ≠ 0 <;>
    simp [execPhase, List.filter_append, List.filter_cons, isMutation, hlen,
      h1, h2, h3, List.append_assoc]

theorem mem_if_report {c : Prop} [Decidable c] {e : Event}
    (h : e ∈ (if c then [Event.report] else [])) : e = Event.report := by
  by_cases hc : c
  · rw [if_pos hc] at h
    simpa using h
  · rw [if_neg hc] at h
    simp at h

/-- C9: with `trial_run`, a sync's effect trace contains only the sidecar
pull, the mtime probe, and console reports — no push, no remove shell
command, no DB checkpoint write. -/
theorem C9_trial_run_is_pure (remote_folder : String)
    (to_remove_dir to_remove : List String)
    (to_add : List (String × Dirent × String)) (new_db : DB)
    (saves : List Bool) :
    ∀ e ∈ rsyncTrace true remote_folder to_remove_dir to_remove to_add
        new_db saves,
      e = Event.pullDb ∨ e = Event.probeMtime ∨ e = Event.report := by
  intro e he
  rw [show rsyncTrace true remote_folder to_remove_dir to_remove to_add
        new_db saves
      = [Event.pullDb, Event.probeMtime, Event.report] ++
        ((if to_remove_dir.length ≠ 0 then [Event.report] else []) ++
         (if to_remove.length ≠ 0 then [Event.report] else []) ++
         (if to_add.length ≠ 0 then [Event.report] else [])) from rfl] at he
  rcases List.mem_append.mp he with h | h
  · simp only [List.mem_cons, List.not_mem_nil, or_false] at h
    rcases h with h | h | h
    · exact Or.inl h
    · exact Or.inr (Or.inl h)
    · exact Or.inr (Or.inr h)
  · rcases List.mem_append.mp h with h | h
    · rcases List.mem_append.mp h with h | h
      · exact Or.inr (Or.inr (mem_if_report h))
      · exact Or.inr (Or.inr (mem_if_report h))
    · exact Or.inr (Or.inr (mem_if_report h))

/-- Witness for C9 at a concrete trial run: the sidecar pull is in the
trace and is one of the three permitted event kinds. -/
theorem C9_trial_run_is_pure_witness :
    Event.pullDb = Event.pullDb ∨ Event.pullDb = Event.probeMtime ∨
      Event.pullDb = Event.report :=
  C9_trial_run_is_pure "/sdcard/adb_test" ["/sdcard/adb_test/old"] [] [] [] []
    Event.pullDb (by decide)

/-- C1 counterexample: the claim speaks of a caller-configured
`remove_prefix` guarding `RemoveDir` execution, but `rsync` has no such
parameter — the guard is the constant `'/sdcard/dfp'` (rsync.py line 326).
Take the caller's intended prefix to be `"/data"`: the non-trial execution
of the plan containing `RemoveDir "/sdcard/dfp/x"` issues the removal
shell command even though the path does not start with `"/data"`, and no
warning replaces it — refuting the claim as stated. -/
theorem C1_rmdir_ignores_caller_pfx :
    Event.rmdirCmd "/sdcard/dfp/x" ∈
        execPhase "/sdcard" ["/sdcard/dfp/x"] [] [] [] []
      ∧ pyStartsWith "/sdcard/dfp/x" "/data" = false := by
  refine ⟨?_, by decide⟩
  decide

/-- C1 amended: the deletion guard exists but its prefix is the hardcoded
string `'/sdcard/dfp'`, not a caller configuration: every `RemoveDir`
whose removal command is issued has a path starting with `'/sdcard/dfp'`,
and every planned `RemoveDir` whose path does not start with
`'/sdcard/dfp'` is reported through the warning callback and skipped, with
no removal shell command issued for it. -/
theorem C1_rmdir_guard_is_hardcoded (remote_folder : String)
    (to_remove_dir to_remove : List String)
    (to_add : List (String × Dirent × String)) (new_db : DB)
    (saves : List Bool) :
    (∀ p, Event.rmdirCmd p ∈
        execPhase remote_folder to_remove_dir to_remove to_add new_db saves →
      pyStartsWith p "/sdcard/dfp" = true)
    ∧ ∀ p ∈ to_remove_dir, pyStartsWith p "/sdcard/dfp" = false →
        Event.warn ("Trying to rmdir " ++ p ++ ": do it by hand instead.")
            ∈ execPhase remote_folder to_remove_dir to_remove to_add new_db
                saves
        ∧ Event.rmdirCmd p ∉
            execPhase remote_folder to_remove_dir to_remove to_add new_db
              saves := by
  have hmem : ∀ e, e ∈ execPhase remote_folder to_remove_dir to_remove to_add
      new_db saves ↔
      (e = Event.dbPush new_db ∨
        (e ∈ rmdirPhase to_remove_dir ∨ e ∈ rmPhase to_remove ∨
          e ∈ (if to_add.length ≠ 0 then [Event.report] else []) ∨
          e ∈ (addPhase remote_folder to_add new_db saves).1 ∨
          e = Event.dbPush (addPhase remote_folder to_add new_db saves).2)) := by
    intro e
    simp [execPhase, List.mem_append, List.mem_cons, or_assoc]
  constructor
  · intro p hp
    rcases (hmem _).mp hp with h | h | h | h | h | h
    · exact absurd h (by simp)
    · rcases mem_rmdirPhase_shape h with h | ⟨q, hq, _, hqs⟩ | ⟨q, hq, _, _⟩
      · exact absurd h (by simp)
      · obtain rfl : p = q := by injection hq
        exact hqs
      · exact absurd hq (by simp)
    · rcases mem_rmPhase_shape h with h | ⟨q, hq, _⟩
      · exact absurd h (by simp)
      · exact absurd hq (by simp)
    · exact absurd (mem_if_report h) (by simp)
    · rcases mem_addPhase_shape remote_folder to_add new_db saves _ h with
        ⟨a, b, hab⟩ | h | ⟨d, hd⟩
      · exact absurd hab (by simp)
      · exact absurd h (by simp)
      · exact absurd hd (by simp)
    · exact absurd h (by simp)
  · intro p hp hs
    refine ⟨(hmem _).mpr (Or.inr (Or.inl (warn_mem_rmdirPhase hp hs))), ?_⟩
    intro hcmd
    rcases (hmem _).mp hcmd with h | h | h | h | h | h
    · exact absurd h (by simp)
    · rcases mem_rmdirPhase_shape h with h | ⟨q, hq, _, hqs⟩ | ⟨q, hq, _, _⟩
      · exact absurd h (by simp)
      · obtain rfl : p = q := by injection hq
        rw [hs] at hqs
        exact Bool.false_ne_true hqs
      · exact absurd hq (by simp)
    · rcases mem_rmPhase_shape h with h | ⟨q, hq, _⟩
      · exact absurd h (by simp)
      · exact absurd hq (by simp)
    · exact absurd (mem_if_report h) (by simp)
    · rcases mem_addPhase_shape remote_folder to_add new_db saves _ h with
        ⟨a, b, hab⟩ | h | ⟨d, hd⟩
      · exact absurd hab (by simp)
      · exact absurd h (by simp)
      · exact absurd hd (by simp)
    · exact absurd h (by simp)

/-- Witness for the amended C1 at concrete inputs: in a plan with the two
`RemoveDir` targets `/sdcard/dfp/x` (inside the hardcoded guard) and
`/sdcard/other` (outside it), the latter is warned about and its removal
command is never issued. -/
theorem C1_rmdir_guard_is_hardcoded_witness :
    Event.warn ("Trying to rmdir " ++ "/sdcard/other" ++
        ": do it by hand instead.")
      ∈ execPhase "/sdcard" ["/sdcard/dfp/x", "/sdcard/other"] [] [] [] []
    ∧ Event.rmdirCmd "/sdcard/other" ∉
        execPhase "/sdcard" ["/sdcard/dfp/x", "/sdcard/other"] [] [] [] [] :=
  (C1_rmdir_guard_is_hardcoded "/sdcard" ["/sdcard/dfp/x", "/sdcard/other"]
    [] [] [] []).2 "/sdcard/other" (by decide) (by decide)

/-- C8: the sidecar DB blob at the sync root is never planned for removal
— classifying the root directory pair never puts
`<remote_folder>/files.pickle` into `to_remove`, whatever the local and
remote file lists are — and the execute phase issues `rm` commands only
for paths in the planned `to_remove` list, so the blob is never deleted. -/
theorem C8_db_blob_never_removed (remote_folder l_root : String)
    (can_use_mtime : Bool) (db : DB) (st : PlanState)
    (l_files r_files : List Dirent)
    (h : remote_folder ++ "/" ++ _DB_NAME ∉ st.to_remove) :
    remote_folder ++ "/" ++ _DB_NAME ∉
      (classifyFiles remote_folder l_root remote_folder can_use_mtime db st
        l_files r_files).to_remove
    ∧ ∀ (to_remove_dir to_remove : List String)
        (to_add : List (String × Dirent × String)) (ndb : DB)
        (saves : List Bool) (p : String),
        Event.rmCmd p ∈
            execPhase remote_folder to_remove_dir to_remove to_add ndb
              saves →
          p ∈ to_remove := by
  constructor
  · show remote_folder ++ "/" ++ _DB_NAME ∉
      (commonFilesLoop remote_folder l_root remote_folder can_use_mtime db
        (_to_dct l_files) (_to_dct r_files)
        (setInter (keysOf (_to_dct r_files)) (keysOf (_to_dct l_files)))
        (extraFilesLoop remote_folder remote_folder (_to_dct r_files)
          (setDiff (keysOf (_to_dct r_files)) (keysOf (_to_dct l_files)))
          (missingFilesLoop l_root remote_folder (_to_dct l_files)
            (setDiff (keysOf (_to_dct l_files)) (keysOf (_to_dct r_files)))
            st))).to_remove
    rw [commonFilesLoop_to_remove]
    apply extraFilesLoop_root_preserves remote_folder (_to_dct r_files)
      (fun q hq => _to_dct_key hq)
    rw [missingFilesLoop_to_remove]
    exact h
  · intro to_remove_dir to_remove to_add ndb saves p hp
    have hmem :
        Event.rmCmd p ∈ (Event.dbPush ndb ::
          (rmdirPhase to_remove_dir ++ rmPhase to_remove ++
            (if to_add.length ≠ 0 then [Event.report] else []) ++
            (addPhase remote_folder to_add ndb saves).1 ++
            [Event.dbPush (addPhase remote_folder to_add ndb saves).2])) :=
      hp
    rcases List.mem_cons.mp hmem with h' | h'
    · exact absurd h' (by simp)
    rcases List.mem_append.mp h' with h' | h'
    rotate_left
    · exact absurd h' (by simp)
    rcases List.mem_append.mp h' with h' | h'
    rotate_left
    · rcases mem_addPhase_shape remote_folder to_add ndb saves _ h' with
        ⟨a, b, hab⟩ | h'' | ⟨d, hd⟩
      · exact absurd hab (by simp)
      · exact absurd h'' (by simp)
      · exact absurd hd (by simp)
    rcases List.mem_append.mp h' with h' | h'
    rotate_left
    · exact absurd (mem_if_report h') (by simp)
    rcases List.mem_append.mp h' with h' | h'
    · rcases mem_rmdirPhase_shape h' with h'' | ⟨q, hq, _, _⟩ | ⟨q, hq, _, _⟩
      · exact absurd h'' (by simp)
      · exact absurd hq (by simp)
      · exact absurd hq (by simp)
    · rcases mem_rmPhase_shape h' with h'' | ⟨q, hq, hqm⟩
      · exact absurd h'' (by simp)
      · obtain rfl : p = q := by injection hq
        exact hqm

/-- Witness for C8 at concrete inputs: at the sync root `/sdcard/adb_test`
with no local files and exactly the blob `files.pickle` on the remote,
classification plans no removal of the blob's path, and a concrete `rm`
event in an execute trace always names a planned path. -/
theorem C8_db_blob_never_removed_witness :
    "/sdcard/adb_test" ++ "/" ++ _DB_NAME ∉
      (classifyFiles "/sdcard/adb_test" "data" "/sdcard/adb_test" false []
        { to_add := [], to_remove := [], to_remove_dir := [], new_db := [],
          db_mtimes := [] }
        [] [Dirent.mk 0o100644 7 0 "files.pickle"]).to_remove :=
  (C8_db_blob_never_removed "/sdcard/adb_test" "data" false []
    { to_add := [], to_remove := [], to_remove_dir := [], new_db := [],
      db_mtimes := [] }
    [] [Dirent.mk 0o100644 7 0 "files.pickle"] (by simp)).1

end AdbSync
